import Mathlib

/-!
# Verification of the texman workspace/build pipeline

Shallow embedding of the texman sources (`src/build.rs`, `src/workspace.rs`)
and proofs about them.

Conventions:
* A filesystem path is a `List String` of components with the *deepest*
  component first, so `parent` is `List.tail` and the filesystem root is `[]`.
  Example: Rust `/ws/docs/report` is `["report", "docs", "ws"]`.
* Rust `Result<T, WorkspaceError>` is `Except WorkspaceError T`.
* Rust panics (`unwrap_or_else(|_| panic!(..))`) are modelled as `Option`
  with `none` for the panic.
-/

namespace Texman

/-- `enum Engine { Xelatex, Pdflatex }` from `src/workspace.rs`. -/
inductive Engine
  | Xelatex
  | Pdflatex
deriving DecidableEq

/-- `struct Metadata { engine: Option<Engine> }` from `src/workspace.rs`:
workspace-level metadata parsed from `workspace.toml`. -/
structure Metadata where
  engine : Option Engine
deriving DecidableEq

/-- `enum WorkspaceError` from `src/workspace.rs`.
`IoError` wraps an opaque `std::io::Error`; we keep only the variant tag,
which is all the claims inspect. -/
inductive WorkspaceError
  | NotFound (path : List String)
  | NotValid (msg : String)
  | IoError
deriving DecidableEq

/-- `struct Workspace { path, metadata }` from `src/workspace.rs`. -/
structure Workspace where
  path : List String
  metadata : Metadata
deriving DecidableEq

/-- `struct DocumentMeta` from `src/workspace.rs`: per-document metadata
parsed from `docs/<key>/metadata.toml`. -/
structure DocumentMeta where
  document_class : String
  document_options : List String
  prelude_includes : List String
  sections : List String
deriving DecidableEq

/-- The filesystem as seen by `find_workspace` (`src/build.rs`):
* `dirExists p` embeds `current.exists()`;
* `hasMarker p` embeds `current.join("workspace.toml").exists()`;
* `loadMeta p` embeds the outcome of `Metadata::load(&p)` performed by
  `Workspace::new`. -/
structure Fs where
  dirExists : List String → Bool
  hasMarker : List String → Bool
  loadMeta : List String → Except WorkspaceError Metadata

/-- `Workspace::new(path)` from `src/workspace.rs`: loads the workspace
metadata at `path` and pairs it with the path. -/
def Workspace.new (fs : Fs) (path : List String) : Except WorkspaceError Workspace :=
  (fs.loadMeta path).map fun m => ⟨path, m⟩

/-- `find_workspace(start)` from `src/build.rs`: walk upward while the
current directory exists; return the workspace at the first directory that
directly contains `workspace.toml`; stop with `NotFound` at a directory
with no parent (the filesystem root `[]`) or at a nonexistent directory. -/
def find_workspace (fs : Fs) : List String → Except WorkspaceError Workspace
  | [] =>
    if fs.dirExists [] then
      if fs.hasMarker [] then Workspace.new fs []
      else .error (.NotFound [])
    else .error (.NotFound [])
  | c :: parent =>
    if fs.dirExists (c :: parent) then
      if fs.hasMarker (c :: parent) then Workspace.new fs (c :: parent)
      else find_workspace fs parent
    else .error (.NotFound (c :: parent))

/-- Depth of the nearest ancestor-or-self of `p` that directly contains the
marker file: `markerDepth fs p = some k` means `p.drop k` is the first
suffix of `p` (walking upward) with `hasMarker`, and `none` means no
ancestor of `p` up to the root has the marker. -/
def markerDepth (fs : Fs) : List String → Option Nat
  | [] => if fs.hasMarker [] then some 0 else none
  | c :: parent =>
    if fs.hasMarker (c :: parent) then some 0
    else (markerDepth fs parent).map (· + 1)

theorem markerDepth_le_length (fs : Fs) :
    ∀ (p : List String) (k : Nat), markerDepth fs p = some k → k ≤ p.length := by
  intro p
  induction p with
  | nil =>
    intro k h
    simp only [markerDepth] at h
    by_cases hm : fs.hasMarker [] = true
    · simp [hm] at h; omega
    · simp [hm] at h
  | cons c parent ih =>
    intro k h
    simp only [markerDepth] at h
    by_cases hm : fs.hasMarker (c :: parent) = true
    · simp [hm] at h; omega
    · rw [Bool.not_eq_true] at hm
      rw [hm] at h
      simp only [Bool.false_eq_true, if_false] at h
      cases hmd : markerDepth fs parent with
      | none => rw [hmd] at h; exact Option.noConfusion h
      | some j =>
        rw [hmd] at h
        have hk : j + 1 = k := by simpa using h
        have := ih j hmd
        simp only [List.length_cons]
        omega

instance {ε α : Type} [DecidableEq ε] [DecidableEq α] : DecidableEq (Except ε α) := fun x y =>
  match x, y with
  | .ok a, .ok b =>
    if h : a = b then .isTrue (by rw [h]) else .isFalse (fun hc => h (Except.ok.inj hc))
  | .error a, .error b =>
    if h : a = b then .isTrue (by rw [h]) else .isFalse (fun hc => h (Except.error.inj hc))
  | .ok _, .error _ => .isFalse (fun hc => Except.noConfusion hc)
  | .error _, .ok _ => .isFalse (fun hc => Except.noConfusion hc)

/-- Claim C1: for every start directory strictly inside a valid workspace
tree (the nearest marker is at depth `n`, every directory on the walk up to
it exists, and the workspace metadata there loads), `find_workspace`
returns the workspace rooted at the nearest ancestor directly containing
`workspace.toml`, at any depth `n`. -/
theorem find_workspace_nearest (fs : Fs) :
    ∀ (p : List String) (n : Nat) (m : Metadata),
      markerDepth fs p = some n →
      (∀ k, k ≤ n → fs.dirExists (p.drop k) = true) →
      fs.loadMeta (p.drop n) = .ok m →
      find_workspace fs p = .ok ⟨p.drop n, m⟩ := by
  intro p
  induction p with
  | nil =>
    intro n m hnear hex hload
    have hm : fs.hasMarker [] = true := by
      by_contra hm0
      rw [Bool.not_eq_true] at hm0
      simp [markerDepth, hm0] at hnear
    have hn : n = 0 := by simp [markerDepth, hm] at hnear; omega
    subst hn
    have hd : fs.dirExists [] = true := hex 0 (le_refl 0)
    simp only [List.drop_zero] at hload ⊢
    simp [find_workspace, hd, hm, Workspace.new, hload, Except.map]
  | cons c parent ih =>
    intro n m hnear hex hload
    have hd : fs.dirExists (c :: parent) = true := by
      have := hex 0 (Nat.zero_le n)
      simpa using this
    by_cases hm : fs.hasMarker (c :: parent) = true
    · have hn : n = 0 := by simp [markerDepth, hm] at hnear; omega
      subst hn
      simp only [List.drop_zero] at hload ⊢
      simp [find_workspace, hd, hm, Workspace.new, hload, Except.map]
    · rw [Bool.not_eq_true] at hm
      have hnear2 : ∃ j, markerDepth fs parent = some j ∧ n = j + 1 := by
        simp only [markerDepth, hm, Bool.false_eq_true, if_false] at hnear
        cases hmd : markerDepth fs parent with
        | none => rw [hmd] at hnear; exact Option.noConfusion hnear
        | some j => rw [hmd] at hnear; exact ⟨j, rfl, by simpa using hnear.symm⟩
      obtain ⟨j, hmd, rfl⟩ := hnear2
      have hex2 : ∀ k, k ≤ j → fs.dirExists (parent.drop k) = true := by
        intro k hk
        have := hex (k + 1) (by omega)
        simpa using this
      have hload2 : fs.loadMeta (parent.drop j) = .ok m := by simpa using hload
      have hrec := ih j m hmd hex2 hload2
      simp only [find_workspace, hd, hm, Bool.false_eq_true, if_false, if_true]
      simpa using hrec

/-- Concrete workspace tree for the C1 witness:
`/ws/workspace.toml` with documents under `/ws/docs/report`. -/
def fsExample : Fs where
  dirExists q := decide (q = [] ∨ q = ["ws"] ∨ q = ["docs", "ws"] ∨ q = ["report", "docs", "ws"])
  hasMarker q := decide (q = ["ws"])
  loadMeta q := if q = ["ws"] then .ok ⟨some Engine.Xelatex⟩ else .error (.NotFound q)

theorem find_workspace_nearest_witness :
    find_workspace fsExample ["report", "docs", "ws"] =
      .ok ⟨["ws"], ⟨some Engine.Xelatex⟩⟩ := by
  have h := find_workspace_nearest fsExample ["report", "docs", "ws"] 2
    ⟨some Engine.Xelatex⟩ (by decide) (by decide) (by decide)
  simpa using h

/-- Claim C7: if no directory from the start up to the filesystem root
directly contains `workspace.toml`, `find_workspace` returns `NotFound`,
stopping either at the root (no parent) or at a nonexistent directory. -/
theorem find_workspace_no_marker (fs : Fs) :
    ∀ p : List String, markerDepth fs p = none →
      ∃ q, q <:+ p ∧ find_workspace fs p = .error (.NotFound q) ∧
        (q = [] ∨ fs.dirExists q = false) := by
  intro p
  induction p with
  | nil =>
    intro h
    have hm : fs.hasMarker [] = false := by
      by_contra hm0
      rw [Bool.not_eq_false] at hm0
      simp [markerDepth, hm0] at h
    refine ⟨[], List.suffix_refl [], ?_, Or.inl rfl⟩
    by_cases hd : fs.dirExists [] = true
    · simp [find_workspace, hd, hm]
    · rw [Bool.not_eq_true] at hd
      simp [find_workspace, hd]
  | cons c parent ih =>
    intro h
    have hm : fs.hasMarker (c :: parent) = false := by
      by_contra hm0
      rw [Bool.not_eq_false] at hm0
      simp [markerDepth, hm0] at h
    have hpar : markerDepth fs parent = none := by
      simp only [markerDepth, hm, Bool.false_eq_true, if_false] at h
      cases hmd : markerDepth fs parent with
      | none => rfl
      | some j => rw [hmd] at h; exact Option.noConfusion h
    by_cases hd : fs.dirExists (c :: parent) = true
    · obtain ⟨q, hsuf, heq, hor⟩ := ih hpar
      refine ⟨q, hsuf.trans (List.suffix_cons c parent), ?_, hor⟩
      simp only [find_workspace, hd, hm, Bool.false_eq_true, if_false, if_true]
      simpa using heq
    · rw [Bool.not_eq_true] at hd
      refine ⟨c :: parent, List.suffix_refl _, ?_, Or.inr hd⟩
      simp [find_workspace, hd]

/-- Concrete markerless tree for the C7 witness. -/
def fsNoMarker : Fs where
  dirExists q := decide (q = [] ∨ q = ["a"])
  hasMarker _ := false
  loadMeta q := .error (.NotFound q)

theorem find_workspace_no_marker_witness :
    ∃ q, q <:+ ["a"] ∧ find_workspace fsNoMarker ["a"] = .error (.NotFound q) ∧
      (q = [] ∨ fsNoMarker.dirExists q = false) :=
  find_workspace_no_marker fsNoMarker ["a"] (by decide)

/-! ## Config loading: `Metadata::load` and `DocumentMeta::load` -/

/-- Outcome of accessing and parsing one config file, as seen by the two
loaders in `src/workspace.rs`:
* `absent`: `File::open` fails with an error of kind `NotFound`;
* `openDenied`: `File::open` fails with any other `std::io::Error`;
* `readError`: `File::open` succeeds, `read_to_end` fails;
* `malformed msg`: the bytes read, but `toml::from_slice` fails with the
  rendered diagnostic `msg`;
* `ok v`: the file parsed to `v`. -/
inductive FileAccess (α : Type)
  | absent
  | openDenied
  | readError
  | malformed (msg : String)
  | ok (value : α)
deriving DecidableEq

/-- `Metadata::load(root)` from `src/workspace.rs`, on the access outcome
of `root/workspace.toml`: every `File::open` error is mapped by
`.map_err(|_| WorkspaceError::NotFound(root.to_path_buf()))` to
`NotFound root`; a `read_to_end` error propagates through `?` as `IoError`;
a `toml::from_slice` error becomes `NotValid` with the formatted message. -/
def Metadata.load (root : List String) (f : FileAccess Metadata) :
    Except WorkspaceError Metadata :=
  match f with
  | .absent => .error (.NotFound root)
  | .openDenied => .error (.NotFound root)
  | .readError => .error .IoError
  | .malformed msg => .error (.NotValid msg)
  | .ok v => .ok v

/-- `DocumentMeta::load(root)` from `src/workspace.rs`, on the access
outcome of `root/metadata.toml`: `File::open(path)?` and `read_to_end(..)?`
convert every `std::io::Error` — including a missing file — via
`#[from]` into `WorkspaceError::IoError`; a `toml::from_slice` error
becomes `NotValid` with `e.to_string()`. -/
def DocumentMeta.load (root : List String) (f : FileAccess DocumentMeta) :
    Except WorkspaceError DocumentMeta :=
  match f with
  | .absent => .error .IoError
  | .openDenied => .error .IoError
  | .readError => .error .IoError
  | .malformed msg => .error (.NotValid msg)
  | .ok v => .ok v

/-- Claim C2 counterexample: `DocumentMeta::load` on an absent
`metadata.toml` under `/ws/docs/report` returns `IoError`, which is not
the `NotFound` (carrying the attempted path) that the claim requires. -/
theorem document_meta_load_absent_not_notFound :
    DocumentMeta.load ["report", "docs", "ws"] .absent = .error .IoError ∧
      (Except.error WorkspaceError.IoError : Except WorkspaceError DocumentMeta) ≠
        .error (.NotFound ["report", "docs", "ws"]) := by
  constructor
  · rfl
  · decide

/-- Claim C2 (amended): `Metadata::load` maps every file-open failure —
absence included — to `NotFound` carrying the workspace root, a read
failure to `IoError`, and a malformed file to `NotValid` with the parse
diagnostic; `DocumentMeta::load` maps every I/O failure — absence
included — to `IoError`, and a malformed file to `NotValid` with the
parse diagnostic; both return the parsed value on success. -/
theorem load_error_modes :
    ∀ (root : List String) (msg : String) (m : Metadata) (d : DocumentMeta),
      Metadata.load root .absent = .error (.NotFound root) ∧
      Metadata.load root .openDenied = .error (.NotFound root) ∧
      Metadata.load root .readError = .error .IoError ∧
      Metadata.load root (.malformed msg) = .error (.NotValid msg) ∧
      Metadata.load root (.ok m) = .ok m ∧
      DocumentMeta.load root .absent = .error .IoError ∧
      DocumentMeta.load root .openDenied = .error .IoError ∧
      DocumentMeta.load root .readError = .error .IoError ∧
      DocumentMeta.load root (.malformed msg) = .error (.NotValid msg) ∧
      DocumentMeta.load root (.ok d) = .ok d := by
  intro root msg m d
  refine ⟨rfl, rfl, rfl, rfl, rfl, rfl, rfl, rfl, rfl, rfl⟩

/-! ## Deserialization of `DocumentMeta` (serde derive on the struct) -/

/-- A TOML value of the two shapes `DocumentMeta`'s fields use. -/
inductive TomlValue
  | str (s : String)
  | strList (l : List String)
deriving DecidableEq

/-- Find the value of the first table entry whose key is one of the
field's accepted names (its serde name plus any `alias`). -/
def lookupField (t : List (String × TomlValue)) (names : List String) :
    Option TomlValue :=
  (t.find? (fun kv => kv.1 ∈ names)).map (·.2)

/-- Deserialize a string field: default when absent, error on a value of
the wrong type. -/
def fieldStr (v : Option TomlValue) (dflt : String) : Except String String :=
  match v with
  | none => .ok dflt
  | some (.str s) => .ok s
  | some (.strList _) => .error "invalid type: expected a string"

/-- Deserialize a string-sequence field: default when absent, error on a
value of the wrong type. -/
def fieldStrList (v : Option TomlValue) (dflt : List String) :
    Except String (List String) :=
  match v with
  | none => .ok dflt
  | some (.str _) => .error "invalid type: expected a sequence"
  | some (.strList l) => .ok l

/-- serde deserialization of `DocumentMeta` (`src/workspace.rs`):
`document_class` also accepts the alias `document-class` and defaults to
`DocumentMeta::default_class()` (`"article"`); `document_options` defaults
to `[]` (`#[serde(default)]`); `prelude_includes` and `sections` default
to `["main.tex"]` (`default_prelude_includes` / `default_sections`). -/
def DocumentMeta.deserialize (t : List (String × TomlValue)) :
    Except String DocumentMeta := do
  let dc ← fieldStr (lookupField t ["document_class", "document-class"]) "article"
  let opts ← fieldStrList (lookupField t ["document_options"]) []
  let pre ← fieldStrList (lookupField t ["prelude_includes"]) ["main.tex"]
  let secs ← fieldStrList (lookupField t ["sections"]) ["main.tex"]
  return ⟨dc, opts, pre, secs⟩

/-- Claim C4: an empty document metadata table yields the defaults
(`document_class = "article"`, `document_options = []`,
`prelude_includes = ["main.tex"]`, `sections = ["main.tex"]`), a table
with only `document-class` omits the other three and gets their defaults,
and the hyphenated key `document-class` deserializes exactly as
`document_class` does on any table tail. -/
theorem documentMeta_defaults_and_alias :
    DocumentMeta.deserialize [] =
      .ok ⟨"article", [], ["main.tex"], ["main.tex"]⟩ ∧
    (∀ s, DocumentMeta.deserialize [("document-class", .str s)] =
      .ok ⟨s, [], ["main.tex"], ["main.tex"]⟩) ∧
    (∀ s t, DocumentMeta.deserialize (("document-class", TomlValue.str s) :: t) =
      DocumentMeta.deserialize (("document_class", TomlValue.str s) :: t)) := by
  refine ⟨rfl, fun s => rfl, fun s t => ?_⟩
  simp [DocumentMeta.deserialize, lookupField, List.find?]

/-! ## The render context of `Document::build_context` -/

/-- A field value inside a serialized record: `Metadata` and
`DocumentMeta` are flat records whose fields are strings or string
sequences. -/
inductive Leaf
  | str (s : String)
  | arr (l : List String)
deriving DecidableEq

/-- A serialized context value (the JSON-like values tera stores):
enough shapes for everything `build_context` inserts, plus objects so
that serialized `Metadata` and `DocumentMeta` records are expressible. -/
inductive Value
  | str (s : String)
  | arr (l : List String)
  | obj (fields : List (String × Leaf))
deriving DecidableEq

/-- serde serialization of `DocumentMeta` (`src/workspace.rs`):
`document_options`, `prelude_includes` and `sections` carry
`skip_serializing_if = "Vec::is_empty"`, so empty lists are omitted. -/
def DocumentMeta.toValue (m : DocumentMeta) : Value :=
  .obj
    ([("document_class", Leaf.str m.document_class)]
      ++ (if m.document_options.isEmpty then []
          else [("document_options", Leaf.arr m.document_options)])
      ++ (if m.prelude_includes.isEmpty then []
          else [("prelude_includes", Leaf.arr m.prelude_includes)])
      ++ (if m.sections.isEmpty then []
          else [("sections", Leaf.arr m.sections)]))

/-- serde serialization of `Engine` (unit enum variants serialize as their
names). -/
def Engine.toStr : Engine → String
  | .Xelatex => "Xelatex"
  | .Pdflatex => "Pdflatex"

/-- serde serialization of the workspace `Metadata`: `engine` carries
`skip_serializing_if = "Option::is_none"`. -/
def Metadata.toValue (m : Metadata) : Value :=
  .obj
    (match m.engine with
      | none => []
      | some e => [("engine", Leaf.str e.toStr)])

/-- `struct Document<'w> { workspace, key, metadata }` from
`src/workspace.rs`. -/
structure Document where
  workspace : Workspace
  key : String
  metadata : DocumentMeta
deriving DecidableEq

/-- `fs::canonicalize` as the embedding sees it: for a component path it
returns the rendered absolute, symlink-resolved path string (`to_str` of
the canonicalized `PathBuf`), or `none` when canonicalization fails (in
the source that failure is `unwrap_or_else(|_| panic!("for now"))`). -/
def Canon : Type := List String → Option String

/-- `Document::build_context` from `src/workspace.rs`: inserts, in order,
`metadata` (the serialized *document* metadata `self.metadata`),
`prelude_root` (the canonicalized `<workspace>/prelude` with a trailing
`/` appended by `format!("{}/", ..)`), `prelude_includes`,
`document_root` (the canonicalized `<workspace>/docs/<key>` with a
trailing `/`), and `sections`; `none` models the panic on a failed
canonicalization. -/
def Document.build_context (canon : Canon) (d : Document) :
    Option (List (String × Value)) := do
  let preludeRoot ← canon ("prelude" :: d.workspace.path)
  let documentRoot ← canon (d.key :: "docs" :: d.workspace.path)
  return [("metadata", d.metadata.toValue),
          ("prelude_root", .str (preludeRoot ++ "/")),
          ("prelude_includes", .arr d.metadata.prelude_includes),
          ("document_root", .str (documentRoot ++ "/")),
          ("sections", .arr d.metadata.sections)]

/-- Look a key up in a context (tera contexts map keys to values; the
five keys inserted by `build_context` are pairwise distinct). -/
def ctxLookup (ctx : List (String × Value)) (k : String) : Option Value :=
  (ctx.find? (fun kv => kv.1 = k)).map (·.2)

/-- The string at key `k` of a context, `""` when absent or not a
string. -/
def ctxStr (ctx : List (String × Value)) (k : String) : String :=
  match ctxLookup ctx k with
  | some (Value.str s) => s
  | _ => ""

/-- The string sequence at key `k` of a context, `[]` when absent or not
a sequence. -/
def ctxArr (ctx : List (String × Value)) (k : String) : List String :=
  match ctxLookup ctx k with
  | some (Value.arr l) => l
  | _ => []

/-- Look a field up in a serialized record. -/
def objLookup (fields : List (String × Leaf)) (k : String) : Option Leaf :=
  (fields.find? (fun kv => kv.1 = k)).map (·.2)

/-- The string field `k` of the record at context key `"metadata"`. -/
def ctxMetaStr (ctx : List (String × Value)) (k : String) : String :=
  match ctxLookup ctx "metadata" with
  | some (Value.obj fields) =>
    match objLookup fields k with
    | some (Leaf.str s) => s
    | _ => ""
  | _ => ""

/-- The sequence field `k` of the record at context key `"metadata"`. -/
def ctxMetaArr (ctx : List (String × Value)) (k : String) : List String :=
  match ctxLookup ctx "metadata" with
  | some (Value.obj fields) =>
    match objLookup fields k with
    | some (Leaf.arr l) => l
    | _ => []
  | _ => []

/-- Modelled from the spec: the embedded template
`src/templates/doc.tera.tex` (referenced by `include_str!` in
`src/workspace.rs`) is not among the provided sources. Per the spec, the
template is fixed at build time and rendering expands it against the
context: the document class and options head the document, then each
prelude include prefixed by `prelude_root`, then each section prefixed by
`document_root`, in declared order. -/
def renderDocument (ctx : List (String × Value)) : String :=
  String.intercalate "\n"
    (["\\documentclass[" ++ String.intercalate "," (ctxMetaArr ctx "document_options")
        ++ "]\x7b" ++ ctxMetaStr ctx "document_class" ++ "\x7d"]
      ++ (ctxArr ctx "prelude_includes").map
          (fun f => "\\input\x7b" ++ ctxStr ctx "prelude_root" ++ f ++ "\x7d")
      ++ ["\\begin\x7bdocument\x7d"]
      ++ (ctxArr ctx "sections").map
          (fun f => "\\input\x7b" ++ ctxStr ctx "document_root" ++ f ++ "\x7d")
      ++ ["\\end\x7bdocument\x7d"])

/-- `Document::generate` from `src/workspace.rs`: render the fixed
template against `build_context()`; `none` models the panics (failed
canonicalization in `build_context`, or a render failure). -/
def Document.generate (canon : Canon) (d : Document) : Option String :=
  (d.build_context canon).map renderDocument

/-- Concrete workspace `/ws` (engine set to `Xelatex`) for the C5, C6 and
C8 witnesses. -/
def wsExample : Workspace := ⟨["ws"], ⟨some Engine.Xelatex⟩⟩

/-- Concrete document `report` under `/ws/docs/report` with two sections
in declared order. -/
def docExample : Document :=
  ⟨wsExample, "report", ⟨"article", [], ["main.tex"], ["intro.tex", "body.tex"]⟩⟩

/-- Concrete canonicalization for the example tree: both directories that
`build_context` resolves exist. -/
def canonExample : Canon := fun p =>
  if p = ["prelude", "ws"] then some "/ws/prelude"
  else if p = ["report", "docs", "ws"] then some "/ws/docs/report"
  else none

/-- The context `build_context` produces for `docExample`. -/
def ctxExample : List (String × Value) :=
  [("metadata", docExample.metadata.toValue),
   ("prelude_root", .str "/ws/prelude/"),
   ("prelude_includes", .arr ["main.tex"]),
   ("document_root", .str "/ws/docs/report/"),
   ("sections", .arr ["intro.tex", "body.tex"])]

/-- Claim C5 counterexample: for the concrete document `report` in a
workspace whose metadata sets `engine = Xelatex`, the context built by
`build_context` does not contain the serialized workspace metadata
anywhere — the `"metadata"` key holds the *document* metadata
(`self.metadata`), and `self.workspace.metadata` is never inserted. -/
theorem build_context_omits_workspace_metadata :
    (docExample.build_context canonExample).map
        (fun ctx => ctx.any (fun kv => decide (kv.2 = wsExample.metadata.toValue))) =
      some false ∧
    docExample.build_context canonExample = some ctxExample := by
  constructor
  · decide
  · decide

/-- Claim C5 (amended): for every document whose context build succeeds,
the context carries the serialized *document* metadata (hence the
resolved document class and options) under `"metadata"`, and the ordered
lists of prelude-include and section filenames exactly as declared in the
document's metadata. -/
theorem build_context_document_fields (canon : Canon) (d : Document)
    (ctx : List (String × Value))
    (h : d.build_context canon = some ctx) :
    ctxLookup ctx "metadata" = some d.metadata.toValue ∧
    ctxLookup ctx "prelude_includes" = some (.arr d.metadata.prelude_includes) ∧
    ctxLookup ctx "sections" = some (.arr d.metadata.sections) := by
  cases h1 : canon ("prelude" :: d.workspace.path) with
  | none => simp [Document.build_context, h1] at h
  | some pr =>
    cases h2 : canon (d.key :: "docs" :: d.workspace.path) with
    | none => simp [Document.build_context, h1, h2] at h
    | some dr =>
      simp only [Document.build_context, h1, h2, Option.some_bind, bind, pure,
        Option.pure_def, Option.some_inj] at h
      subst h
      exact ⟨rfl, rfl, rfl⟩

theorem build_context_document_fields_witness :
    ctxLookup ctxExample "metadata" = some docExample.metadata.toValue ∧
    ctxLookup ctxExample "prelude_includes" =
      some (.arr docExample.metadata.prelude_includes) ∧
    ctxLookup ctxExample "sections" = some (.arr docExample.metadata.sections) :=
  build_context_document_fields canonExample docExample ctxExample (by decide)

/-- Claim C6: `Document::generate` is a deterministic function of the
workspace metadata, the document metadata, and the two resolved
directory paths: two documents (or two calls) agreeing on those inputs
produce byte-identical text. -/
theorem generate_deterministic (canon₁ canon₂ : Canon) (d₁ d₂ : Document)
    (hws : d₁.workspace.metadata = d₂.workspace.metadata)
    (hmeta : d₁.metadata = d₂.metadata)
    (hpre : canon₁ ("prelude" :: d₁.workspace.path) =
      canon₂ ("prelude" :: d₂.workspace.path))
    (hdoc : canon₁ (d₁.key :: "docs" :: d₁.workspace.path) =
      canon₂ (d₂.key :: "docs" :: d₂.workspace.path)) :
    d₁.generate canon₁ = d₂.generate canon₂ := by
  simp only [Document.generate, Document.build_context, hmeta, hpre, hdoc]

theorem generate_deterministic_witness :
    docExample.generate canonExample = docExample.generate canonExample :=
  generate_deterministic canonExample canonExample docExample docExample
    rfl rfl rfl rfl

/-- Claim C8: the `prelude_root` and `document_root` values injected into
the context are exactly the canonicalized (absolute, symlink-resolved)
directory paths with an explicit trailing `/` appended; under the
`fs::canonicalize` contract that returned paths are absolute (begin with
the root separator), both values begin and end with `/`. -/
theorem build_context_root_paths (canon : Canon) (d : Document)
    (ctx : List (String × Value))
    (habs : ∀ p s, canon p = some s → ∃ r, s = "/" ++ r)
    (h : d.build_context canon = some ctx) :
    ∃ pr dr,
      canon ("prelude" :: d.workspace.path) = some pr ∧
      canon (d.key :: "docs" :: d.workspace.path) = some dr ∧
      ctxLookup ctx "prelude_root" = some (.str (pr ++ "/")) ∧
      ctxLookup ctx "document_root" = some (.str (dr ++ "/")) ∧
      (∃ a, pr ++ "/" = "/" ++ (a ++ "/")) ∧
      (∃ b, dr ++ "/" = "/" ++ (b ++ "/")) := by
  cases h1 : canon ("prelude" :: d.workspace.path) with
  | none => simp [Document.build_context, h1] at h
  | some pr =>
    cases h2 : canon (d.key :: "docs" :: d.workspace.path) with
    | none => simp [Document.build_context, h1, h2] at h
    | some dr =>
      simp only [Document.build_context, h1, h2, Option.some_bind, bind, pure,
        Option.pure_def, Option.some_inj] at h
      subst h
      obtain ⟨a, ha⟩ := habs _ _ h1
      obtain ⟨b, hb⟩ := habs _ _ h2
      refine ⟨pr, dr, rfl, rfl, rfl, rfl, ⟨a, ?_⟩, ⟨b, ?_⟩⟩
      · rw [ha, String.append_assoc]
      · rw [hb, String.append_assoc]

theorem build_context_root_paths_witness :
    ∃ pr dr,
      canonExample ("prelude" :: docExample.workspace.path) = some pr ∧
      canonExample (docExample.key :: "docs" :: docExample.workspace.path) = some dr ∧
      ctxLookup ctxExample "prelude_root" = some (.str (pr ++ "/")) ∧
      ctxLookup ctxExample "document_root" = some (.str (dr ++ "/")) ∧
      (∃ a, pr ++ "/" = "/" ++ (a ++ "/")) ∧
      (∃ b, dr ++ "/" = "/" ++ (b ++ "/")) :=
  build_context_root_paths canonExample docExample ctxExample
    (by
      intro p s h
      unfold canonExample at h
      by_cases h1 : p = ["prelude", "ws"]
      · rw [if_pos h1] at h
        obtain rfl := (Option.some.inj h).symm
        exact ⟨"ws/prelude", by decide⟩
      · rw [if_neg h1] at h
        by_cases h2 : p = ["report", "docs", "ws"]
        · rw [if_pos h2] at h
          obtain rfl := (Option.some.inj h).symm
          exact ⟨"ws/docs/report", by decide⟩
        · rw [if_neg h2] at h
          exact Option.noConfusion h)
    (by decide)

/-! ## The build orchestration of `build` (`src/build.rs`, lines 64-74) -/

/-- `enum BuildError` from `src/build.rs`; the `IoError` and `BuildError`
variants wrap opaque `std::io::Error` / `xshell::Error` values, of which
we keep only the tag. -/
inductive BuildError
  | IoError
  | WorkspaceError (e : WorkspaceError)
  | BuildError
deriving DecidableEq

/-- Externally observable side effects of the non-pure tail of `build`:
printing the generated text, creating the scoped temp dir, writing a file
inside it, running a shell command, and copying a file to a destination
path. -/
inductive BuildEvent
  | printStdout (text : String)
  | createTempDir
  | writeFile (name : String) (content : String)
  | runCommand (cmdline : String)
  | copyFile (src : String) (dst : List String)
deriving DecidableEq

/-- Success/failure of each fallible shell collaborator that `build`
invokes, in program order: `Shell::new()`, `create_temp_dir()`,
`write_file(..)`, the external `xelatex` command, and `copy_file(..)`. -/
structure ShellOutcomes where
  newShellOk : Bool
  tempDirOk : Bool
  writeOk : Bool
  compileOk : Bool
  copyOk : Bool
deriving DecidableEq

/-- Tail of `build(opts)` from `src/build.rs` after the document text has
been generated: `generateOnly` is `opts.generate`; `meta` is the loaded
workspace metadata (in scope via `workspace`, never read here);
`outputPath` is the outcome of `document.output_path()` (evaluated only
when the copy statement is reached). Returns the Rust result together
with the ordered trace of side effects; each fallible step stops the
trace when its `ShellOutcomes` flag is false, and every `xshell` failure
becomes `BuildError::BuildError` via `#[from]`. -/
def build (generateOnly : Bool) (meta : Metadata) (text : String)
    (outputPath : Except WorkspaceError (List String)) (sh : ShellOutcomes) :
    Except BuildError Unit × List BuildEvent :=
  if generateOnly then
    (.ok (), [.printStdout text])
  else if sh.newShellOk = false then
    (.error .BuildError, [])
  else if sh.tempDirOk = false then
    (.error .BuildError, [])
  else if sh.writeOk = false then
    (.error .BuildError, [.createTempDir])
  else if sh.compileOk = false then
    (.error .BuildError,
      [.createTempDir, .writeFile "output.tex" text, .runCommand "xelatex output.tex"])
  else
    match outputPath with
    | .error e =>
      (.error (.WorkspaceError e),
        [.createTempDir, .writeFile "output.tex" text, .runCommand "xelatex output.tex"])
    | .ok dst =>
      if sh.copyOk = false then
        (.error .BuildError,
          [.createTempDir, .writeFile "output.tex" text, .runCommand "xelatex output.tex",
           .copyFile "output.pdf" dst])
      else
        (.ok (),
          [.createTempDir, .writeFile "output.tex" text, .runCommand "xelatex output.tex",
           .copyFile "output.pdf" dst])

/-- Whether an event is a copy to some destination path. -/
def BuildEvent.isCopy : BuildEvent → Bool
  | .copyFile _ _ => true
  | _ => false

/-- Whether an event, if it runs an external command, runs exactly
`xelatex output.tex`. -/
def BuildEvent.commandIsXelatex : BuildEvent → Bool
  | .runCommand c => decide (c = "xelatex output.tex")
  | _ => true

/-- Whether a build result is a success. -/
def isOkResult : Except BuildError Unit → Bool
  | .ok _ => true
  | .error _ => false

/-- Claim C9: in generate-only mode the rendered text printed to stdout
is the sole observable output of the build tail — the result is success
and the trace holds exactly the print: no temp dir is created, no command
(the compile collaborator included) is invoked, and no file is written or
copied anywhere, `docs/<key>/output.pdf` included. -/
theorem generate_only_prints_only :
    ∀ (meta : Metadata) (text : String)
      (outputPath : Except WorkspaceError (List String)) (sh : ShellOutcomes),
      build true meta text outputPath sh = (.ok (), [.printStdout text]) :=
  fun _ _ _ _ => rfl

/-- Claim C3: in build mode a copy to the canonical output path occurs in
the trace only if the compile collaborator succeeded; when the
collaborator fails, the build returns an error and its trace holds no
copy at all, so `docs/<key>/output.pdf` is left untouched. -/
theorem build_no_copy_on_compile_failure
    (meta : Metadata) (text : String)
    (outputPath : Except WorkspaceError (List String)) (sh : ShellOutcomes) :
    ((build false meta text outputPath sh).2.any (fun e => e.isCopy) = true →
      sh.compileOk = true) ∧
    (sh.compileOk = false →
      isOkResult (build false meta text outputPath sh).1 = false ∧
      (build false meta text outputPath sh).2.all (fun e => !e.isCopy) = true) := by
  obtain ⟨ns, td, w, cp, co⟩ := sh
  cases ns <;> cases td <;> cases w <;> cases cp <;> cases co <;>
    cases outputPath <;>
    simp [build, BuildEvent.isCopy, isOkResult]

/-- Shell outcomes where everything succeeds except the external compile
command. -/
def shCompileFail : ShellOutcomes := ⟨true, true, true, false, true⟩

theorem build_no_copy_on_compile_failure_witness :
    isOkResult (build false ⟨some Engine.Xelatex⟩ "text"
      (.ok ["output.pdf", "report", "docs", "ws"]) shCompileFail).1 = false ∧
    (build false ⟨some Engine.Xelatex⟩ "text"
      (.ok ["output.pdf", "report", "docs", "ws"]) shCompileFail).2.all
      (fun e => !e.isCopy) = true :=
  (build_no_copy_on_compile_failure ⟨some Engine.Xelatex⟩ "text"
    (.ok ["output.pdf", "report", "docs", "ws"]) shCompileFail).2 rfl

/-- Claim C10: the workspace metadata's `engine` field is never consulted
by the build tail — the outcome and trace are identical for any two
engine settings — and every external command the trace runs is exactly
the fixed `xelatex output.tex`. -/
theorem engine_never_consulted
    (generateOnly : Bool) (e₁ e₂ : Option Engine) (text : String)
    (outputPath : Except WorkspaceError (List String)) (sh : ShellOutcomes) :
    build generateOnly ⟨e₁⟩ text outputPath sh =
      build generateOnly ⟨e₂⟩ text outputPath sh ∧
    (build generateOnly ⟨e₁⟩ text outputPath sh).2.all
      (fun e => e.commandIsXelatex) = true := by
  constructor
  · rfl
  · obtain ⟨ns, td, w, cp, co⟩ := sh
    cases generateOnly <;> cases ns <;> cases td <;> cases w <;> cases cp <;>
      cases co <;> cases outputPath <;>
      simp [build, BuildEvent.commandIsXelatex]

end Texman
